import Mathlib

set_option linter.unusedVariables false

set_option linter.unnecessarySimpa false

namespace Watcher

/-- A record of the servers.json table (an Endpoint in the spec's terms).
Fields follow src/index.js: records are created by Servers.create with
status "متوقف", notifyOnError true, autoRestart false, botName "MaxBlack". -/
structure Server where
  _id : String
  userId : Nat
  serverName : String
  serverType : String
  ip : String
  port : Nat
  status : String
  notifyOnError : Bool
  autoRestart : Bool
  botName : String
deriving DecidableEq

/-- Status strings persisted by the Session Manager (src/index.js, Arabic literals). -/
def statusStopped : String := "متوقف"

def statusSearching : String := "جاري البحث..."

def statusConnecting : String := "جاري الاتصال..."

def statusActive : String := "نشط"

def statusReconnecting : String := "إعادة الاتصال..."

def statusUnsupported : String := "إصدار غير مدعوم"

def statusConnectFailed : String := "فشل الاتصال"

/-- A `$set` style patch as used by Servers.updateOne callers: only the
fields that the Session Manager actually patches are representable. -/
structure ServerPatch where
  status : Option String := none
  autoRestart : Option Bool := none
  serverName : Option String := none
deriving DecidableEq

def applyPatch (p : ServerPatch) (s : Server) : Server :=
  { s with
    status := p.status.getD s.status
    autoRestart := p.autoRestart.getD s.autoRestart
    serverName := p.serverName.getD s.serverName }

/-- Servers.findById (src/index.js line 526): first record with matching `_id`, else none. -/
def findById (servers : List Server) (id : String) : Option Server :=
  servers.find? (fun s => s._id == id)

/-- Servers.updateOne (src/index.js line 548): findIndex by `_id`, merge the
`$set` payload into that one record, leave the table unchanged if no match. -/
def updateOne : List Server → String → ServerPatch → List Server
  | [], _, _ => []
  | s :: ss, id, p =>
    if s._id == id then applyPatch p s :: ss else s :: updateOne ss id p

/-- A record of the versions.json table (a VersionCatalogEntry). -/
structure Version where
  type : String
  protocol : Nat
  name : String
deriving DecidableEq

/-- getSupportedVersions (src/index.js lines 711-723) builds a map
protocolMap[type][protocol] = name by iterating the versions table in order
(later entries overwrite earlier ones); this models the subsequent lookup
protocolMap[ty][protocol]. -/
def getSupportedVersions (versions : List Version) (ty : String) (protocol : Nat) : Option String :=
  versions.foldl (fun acc v => if v.type == ty && v.protocol == protocol then some v.name else acc) none

/-- The fixed BEDROCK_VERSIONS seed table (src/index.js line 677); the
for-in loop enumerates the integer keys in ascending numeric order. -/
def initialBedrockVersions : List Version :=
  [⟨"bedrock", 422, "1.16.201"⟩, ⟨"bedrock", 448, "1.17.10"⟩, ⟨"bedrock", 475, "1.18.0"⟩,
   ⟨"bedrock", 503, "1.18.30"⟩, ⟨"bedrock", 527, "1.19.1"⟩, ⟨"bedrock", 544, "1.19.20"⟩,
   ⟨"bedrock", 554, "1.19.30"⟩, ⟨"bedrock", 560, "1.19.50"⟩, ⟨"bedrock", 568, "1.19.63"⟩,
   ⟨"bedrock", 575, "1.19.70"⟩, ⟨"bedrock", 582, "1.19.80"⟩, ⟨"bedrock", 589, "1.20.0"⟩,
   ⟨"bedrock", 594, "1.20.10"⟩, ⟨"bedrock", 618, "1.20.30"⟩, ⟨"bedrock", 622, "1.20.40"⟩,
   ⟨"bedrock", 630, "1.20.50"⟩, ⟨"bedrock", 649, "1.20.61"⟩, ⟨"bedrock", 662, "1.20.71"⟩,
   ⟨"bedrock", 671, "1.20.80"⟩, ⟨"bedrock", 685, "1.21.0"⟩, ⟨"bedrock", 686, "1.21.2"⟩,
   ⟨"bedrock", 712, "1.21.20"⟩, ⟨"bedrock", 729, "1.21.30"⟩, ⟨"bedrock", 748, "1.21.42"⟩,
   ⟨"bedrock", 766, "1.21.50"⟩, ⟨"bedrock", 776, "1.21.60"⟩, ⟨"bedrock", 786, "1.21.70"⟩,
   ⟨"bedrock", 800, "1.21.80"⟩, ⟨"bedrock", 818, "1.21.90"⟩, ⟨"bedrock", 827, "1.21.100"⟩]

/-- A cache entry { value, expiry } with expiry in milliseconds, as stored
by setToCache (src/index.js lines 107-110). -/
structure CacheEntry (V : Type) where
  value : V
  expiry : Nat
deriving DecidableEq

/-- A JS Map used as a cache, modelled pointwise: each key holds at most one entry. -/
def Cache (K V : Type) : Type := K → Option (CacheEntry V)

/-- getFromCache (src/index.js lines 98-105): if an entry is present and
entry.expiry > now, return its value and leave the map alone; otherwise
delete the key and return null.  The pair is (map after the call, result). -/
def getFromCache {K V : Type} [DecidableEq K] (cache : Cache K V) (key : K) (now : Nat) :
    Cache K V × Option V :=
  match cache key with
  | some entry =>
    if entry.expiry > now then (cache, some entry.value)
    else (fun k => if k = key then none else cache k, none)
  | none => (fun k => if k = key then none else cache k, none)

/-- setToCache (src/index.js lines 107-110): unconditionally overwrite the
key with { value, expiry := now + ttl * 1000 } (ttl is in seconds, the map
stores milliseconds). -/
def setToCache {K V : Type} [DecidableEq K] (cache : Cache K V) (key : K) (value : V)
    (ttl : Nat) (now : Nat) : Cache K V :=
  fun k => if k = key then some ⟨value, now + ttl * 1000⟩ else cache k

/-- The JSON-like values a table file deserializes to. -/
inductive JsonValue where
  | arr (elems : List JsonValue)
  | obj (fields : List (String × JsonValue))
  | str (s : String)
  | num (n : Int)
  | boolean (b : Bool)
  | nullV

/-- What fs.readFile produced for a table file: its text, ENOENT, or some other error. -/
inductive FsResult where
  | ok (data : String)
  | enoent
  | otherError (msg : String)

/-- The per-file default used by readDb when a file is missing or unparseable
(src/index.js lines 57-72): [] for users/servers/versions, {} for config and
for any other file. -/
def emptyDefault (file : String) : JsonValue :=
  if file == "users.json" then .arr []
  else if file == "servers.json" then .arr []
  else if file == "config.json" then .obj []
  else if file == "versions.json" then .arr []
  else .obj []

/-- readDb (src/index.js lines 50-78).  JSON.parse is abstracted as a
function returning none exactly when it would throw a SyntaxError.
Missing file or parse failure yield the per-file default; any other read
error is rethrown (the lock acquire/release around the body is elided:
it guards a single read and is released on every path). -/
def readDb (parseJson : String → Option JsonValue) (file : String) (fs : FsResult) :
    Except String JsonValue :=
  match fs with
  | .ok data =>
    match parseJson data with
    | some v => .ok v
    | none => .ok (emptyDefault file)
  | .enoent => .ok (emptyDefault file)
  | .otherError msg => .error msg

/-- Shared shape of Servers.deleteOne (src/index.js lines 558-567) and
Versions.deleteOne (lines 622-631): drop every record matching the query;
if the table shrank, write it back and report deletedCount 1, otherwise do
not write and report deletedCount 0.  The result is
(table after the call, deletedCount, whether writeDb was called). -/
def deleteOne {α : Type} (matchesQ : α → Bool) (records : List α) : List α × Nat × Bool :=
  let remaining := records.filter (fun r => !(matchesQ r))
  if remaining.length < records.length then (remaining, 1, true)
  else (records, 0, false)

namespace Servers

/-- Servers.deleteOne, with the query `{k₁: v₁, ...}` abstracted to its
match predicate `s => Object.keys(query).every(key => s[key] === query[key])`. -/
def deleteOne (matchesQ : Server → Bool) (servers : List Server) : List Server × Nat × Bool :=
  Watcher.deleteOne matchesQ servers

end Servers

namespace Versions

/-- Versions.deleteOne, with the query abstracted to its match predicate. -/
def deleteOne (matchesQ : Version → Bool) (versions : List Version) : List Version × Nat × Bool :=
  Watcher.deleteOne matchesQ versions

end Versions

/-- An activeClients map value (src/index.js lines 792-797):
{ client, type, serverId, startTime }.  The connection handle is opaque;
a Nat stands in for it. -/
structure ClientEntry where
  client : Nat
  type : String
  serverId : String
  startTime : Nat
deriving DecidableEq

/-- One pending setTimeout(() => startBedrockBot(null, currentServer, versions), 30000)
from handleDisconnect (src/index.js line 808).  The callback closes over the
server record read at disconnect time and the versions map; ctx is the UI
context argument (null in the scheduled call). -/
structure ScheduledRestart where
  delayMs : Nat
  ctx : Option Nat
  server : Server
  versions : List Version
deriving DecidableEq

/-- The shared mutable state the Session Manager touches: the persisted
servers table, the in-memory activeClients map, and the pending timers. -/
structure SMState where
  servers : List Server
  activeClients : List (String × ClientEntry)
  scheduled : List ScheduledRestart
deriving DecidableEq

/-- activeClients.has(key). -/
def clientsHas (m : List (String × ClientEntry)) (k : String) : Bool :=
  m.any (fun p => p.1 == k)

/-- activeClients.get(key). -/
def clientsGet (m : List (String × ClientEntry)) (k : String) : Option ClientEntry :=
  (m.find? (fun p => p.1 == k)).map (fun p => p.2)

/-- activeClients.set(key, v): overwrite in place if present, else append. -/
def clientsSet (m : List (String × ClientEntry)) (k : String) (v : ClientEntry) :
    List (String × ClientEntry) :=
  if clientsHas m k then m.map (fun p => if p.1 == k then (k, v) else p)
  else m ++ [(k, v)]

/-- activeClients.delete(key). -/
def clientsDelete (m : List (String × ClientEntry)) (k : String) :
    List (String × ClientEntry) :=
  m.filter (fun p => !(p.1 == k))

/-- The part of a statusBedrock response that startBedrockBot reads:
response.version.protocol and response.version.name. -/
structure ProbeResponse where
  protocol : Nat
  versionName : String
deriving DecidableEq

/-- The caller-visible outcome of a start attempt (the distinct messages
startBot/startBedrockBot edit into the chat). -/
inductive StartResult where
  | notFound
  | alreadyRunning
  | unsupported (protocol : Nat)
  | connectFailed
  | started (mcVersion : String)
deriving DecidableEq

/-- The try-block body of startBedrockBot (src/index.js lines 759-848).
The two external-collaborator calls that can throw are inputs:
`probe` is the awaited statusBedrock result, `connect` the bedrock.createClient
result (a fresh handle or a thrown error).  An error result carries the
message together with the shared state as already mutated when the throw
happens, exactly as the JS state would be. -/
def startBedrockBotBody (ctx : Option Nat) (server : Server) (versions : List Version)
    (probe : Except String ProbeResponse) (connect : Except String Nat) (now : Nat)
    (st : SMState) : Except (String × SMState) (SMState × StartResult) :=
  match probe with
  | .error e => .error (e, st)
  | .ok response =>
    match getSupportedVersions versions "bedrock" response.protocol with
    | none =>
      .ok ({ st with servers := updateOne st.servers server._id { status := some statusUnsupported } },
           .unsupported response.protocol)
    | some mcVersion =>
      let st1 : SMState :=
        { st with servers := updateOne st.servers server._id { status := some statusConnecting } }
      match connect with
      | .error e => .error (e, st1)
      | .ok handle =>
        .ok ({ st1 with
                activeClients := clientsSet st1.activeClients server._id
                  ⟨handle, "bedrock", server._id, now⟩ },
             .started mcVersion)

/-- startBedrockBot (src/index.js lines 757-860): the try-block body with its
catch handler (lines 850-859), which deletes any activeClients entry for the
server, persists status "فشل الاتصال" and reports the generic failure message. -/
def startBedrockBot (ctx : Option Nat) (server : Server) (versions : List Version)
    (probe : Except String ProbeResponse) (connect : Except String Nat) (now : Nat)
    (st : SMState) : SMState × StartResult :=
  match startBedrockBotBody ctx server versions probe connect now st with
  | .ok r => r
  | .error (_e, stAtThrow) =>
    ({ stAtThrow with
        activeClients := clientsDelete stAtThrow.activeClients server._id
        servers := updateOne stAtThrow.servers server._id { status := some statusConnectFailed } },
     .connectFailed)

/-- The observable actions of handleDisconnect, in the order the code
performs them. -/
inductive DEvent where
  | sessionRemoved (id : String)
  | statusPersisted (id : String) (status : String)
  | restartScheduled (id : String) (delayMs : Nat) (hasCtx : Bool)
  | notifyAttempted (delivered : Bool)
deriving DecidableEq

/-- handleDisconnect (src/index.js lines 799-824): delete the activeClients
entry first, re-read the record by id; if the re-read record exists and has
autoRestart, persist "إعادة الاتصال..." and schedule
startBedrockBot(null, currentServer, versions) after 30000 ms; otherwise run
Servers.updateOne({_id}, {status: "متوقف"}) (a no-op on the table when the
record is missing).  Finally attempt the owner notification; a failed send
(`notifyOk = false`) is swallowed and changes no state. -/
def handleDisconnect (server : Server) (versions : List Version) (reason : String)
    (notifyOk : Bool) (st : SMState) : SMState × List DEvent :=
  let st1 : SMState := { st with activeClients := clientsDelete st.activeClients server._id }
  match findById st1.servers server._id with
  | some currentServer =>
    if currentServer.autoRestart then
      ({ st1 with
          servers := updateOne st1.servers currentServer._id { status := some statusReconnecting }
          scheduled := st1.scheduled ++ [⟨30000, none, currentServer, versions⟩] },
       [.sessionRemoved server._id,
        .statusPersisted currentServer._id statusReconnecting,
        .restartScheduled currentServer._id 30000 false,
        .notifyAttempted notifyOk])
    else
      ({ st1 with servers := updateOne st1.servers server._id { status := some statusStopped } },
       [.sessionRemoved server._id,
        .statusPersisted server._id statusStopped,
        .notifyAttempted notifyOk])
  | none =>
    ({ st1 with servers := updateOne st1.servers server._id { status := some statusStopped } },
     [.sessionRemoved server._id,
      .statusPersisted server._id statusStopped,
      .notifyAttempted notifyOk])

/-- The caller-visible outcome of stopBot. -/
inductive StopResult where
  | notFound
  | stopped
deriving DecidableEq

/-- stopBot (src/index.js lines 881-907): report not-found if the record is
missing; persist { status: "متوقف", autoRestart: false }; if an activeClients
entry exists, call the client teardown (client.disconnect(), not wrapped in
any try) and then delete the entry.  `teardown` is the collaborator call's
outcome; a thrown teardown propagates out of stopBot with the state as
mutated so far. -/
def stopBot (serverId : String) (teardown : Except String Unit) (st : SMState) :
    SMState × Except String StopResult :=
  match findById st.servers serverId with
  | none => (st, .ok .notFound)
  | some server =>
    let stopPatch : ServerPatch := { status := some statusStopped, autoRestart := some false }
    let st1 : SMState := { st with servers := updateOne st.servers server._id stopPatch }
    if clientsHas st1.activeClients serverId then
      match teardown with
      | .error e => (st1, .error e)
      | .ok _ =>
        ({ st1 with activeClients := clientsDelete st1.activeClients serverId }, .ok .stopped)
    else
      (st1, .ok .stopped)

/-- Persisted status of an endpoint, read back through findById. -/
def statusOf (st : SMState) (id : String) : Option String :=
  (findById st.servers id).map (fun s => s.status)

/-- The `$set` payload of stopBot's updateOne call (src/index.js line 890). -/
def stopBotPatch : ServerPatch := { status := some statusStopped, autoRestart := some false }

/-- Insert a record into a list that is ascending by `_id`, keeping it
ascending. -/
def insertById (s : Server) : List Server → List Server
  | [] => [s]
  | t :: ts => if s._id ≤ t._id then s :: t :: ts else t :: insertById s ts

/-- userServers.sort((a, b) => a._id.localeCompare(b._id))
(src/index.js line 697), as an insertion sort ascending by `_id`
(localeCompare on the hex id strings orders them lexicographically). -/
def sortById (l : List Server) : List Server :=
  l.foldr insertById []

/-- The renaming loop of reorderServers (src/index.js lines 698-700):
the record at position i gets serverName "S - " ++ (i + 1). -/
def renameFrom : Nat → List Server → List Server
  | _, [] => []
  | i, s :: ss => { s with serverName := "S - " ++ toString (i + 1) } :: renameFrom (i + 1) ss

/-- reorderServers (src/index.js lines 689-708): split the table into this
user's records and everyone else's, sort this user's subset ascending by
`_id`, reassign the sequential names, and write back others ++ renamed. -/
def reorderServers (servers : List Server) (userId : Nat) : List Server :=
  let userServers := servers.filter (fun s => s.userId == userId)
  let renamed := renameFrom 0 (sortById userServers)
  let otherServers := servers.filter (fun s => !(s.userId == userId))
  otherServers ++ renamed

/-- A record with its serverName blanked: two records agree under eraseName
exactly when they differ in at most the serverName field. -/
def eraseName (s : Server) : Server :=
  { s with serverName := "" }

/-- Outcome of one task running start on the cooperative event loop. -/
inductive RaceResult where
  | notFound
  | alreadyRunning
  | unsupported
  | started
deriving DecidableEq

/-- One in-flight start(serverId) invocation: its program counter names the
next atomic segment (the code between two awaits) it will run. -/
structure RaceTask where
  pc : Nat
  result : Option RaceResult
deriving DecidableEq

/-- The shared state the racing start calls touch. clientsCreated counts
bedrock.createClient calls, so an overwritten activeClients entry still
shows up as a second live connection. -/
structure RaceState where
  servers : List Server
  activeClients : List (String × ClientEntry)
  clientsCreated : Nat
deriving DecidableEq

/-- One atomic segment of startBot + startBedrockBot
(src/index.js lines 725-753 and 757-797) on the single-threaded event loop.
Control can switch tasks only between segments, i.e. at the awaits:

pc 0: continuation of `await Servers.findById`: the not-found check, the
  synchronous activeClients.has presence check, and the decision to issue
  the status write — no suspension inside (lines 726-742);
pc 1: the `await Servers.updateOne(..., "جاري البحث...")` write lands (line 743);
pc 2: `await getSupportedVersions()` returns (line 748);
pc 3: `await statusBedrock(...)` returns, probe assumed to answer
  `probeProtocol` (line 760);
pc 4: the synchronous catalog lookup after the probe (lines 762-764);
pc 5: the `await Servers.updateOne(..., "جاري الاتصال...")` write lands (line 772);
pc 6: bedrock.createClient plus activeClients.set, synchronous (lines 783-797);
pc 10: the `await Servers.updateOne(..., "إصدار غير مدعوم")` write lands (line 765). -/
def stepStart (serverId : String) (probeProtocol : Nat) (versions : List Version) (now : Nat)
    (g : RaceState) (t : RaceTask) : RaceState × RaceTask :=
  match t.result with
  | some _ => (g, t)
  | none =>
    match t.pc with
    | 0 =>
      match findById g.servers serverId with
      | none => (g, { t with result := some .notFound })
      | some _server =>
        if clientsHas g.activeClients serverId then
          (g, { t with result := some .alreadyRunning })
        else
          (g, { t with pc := 1 })
    | 1 =>
      ({ g with servers := updateOne g.servers serverId { status := some statusSearching } },
       { t with pc := 2 })
    | 2 => (g, { t with pc := 3 })
    | 3 => (g, { t with pc := 4 })
    | 4 =>
      match getSupportedVersions versions "bedrock" probeProtocol with
      | none => (g, { t with pc := 10 })
      | some _ => (g, { t with pc := 5 })
    | 5 =>
      ({ g with servers := updateOne g.servers serverId { status := some statusConnecting } },
       { t with pc := 6 })
    | 6 =>
      ({ g with
          clientsCreated := g.clientsCreated + 1
          activeClients := clientsSet g.activeClients serverId
            ⟨g.clientsCreated + 1, "bedrock", serverId, now⟩ },
       { t with result := some .started })
    | 10 =>
      ({ g with servers := updateOne g.servers serverId { status := some statusUnsupported } },
       { t with result := some .unsupported })
    | _ => (g, t)

/-- Two start(serverId) calls racing on the event loop. -/
structure RaceConfig where
  g : RaceState
  t1 : RaceTask
  t2 : RaceTask
deriving DecidableEq

/-- Run one atomic segment of the chosen task. -/
def raceStep (serverId : String) (probeProtocol : Nat) (versions : List Version) (now : Nat)
    (c : RaceConfig) (pickFirst : Bool) : RaceConfig :=
  if pickFirst then
    let r := stepStart serverId probeProtocol versions now c.g c.t1
    ⟨r.1, r.2, c.t2⟩
  else
    let r := stepStart serverId probeProtocol versions now c.g c.t2
    ⟨r.1, c.t1, r.2⟩

/-- Run a schedule: each Bool picks which task runs its next atomic segment. -/
def raceRun (serverId : String) (probeProtocol : Nat) (versions : List Version) (now : Nat)
    (c : RaceConfig) : List Bool → RaceConfig
  | [] => c
  | b :: bs => raceRun serverId probeProtocol versions now
      (raceStep serverId probeProtocol versions now c b) bs

/-- A concrete endpoint record used by the examples below. -/
def c1server : Server :=
  ⟨"e1", 7, "srv", "bedrock", "1.2.3.4", 19132, statusStopped, true, false, "MaxBlack"⟩

/-- A one-entry version catalog: protocol 800 is supported. -/
def c1catalog : List Version := [⟨"bedrock", 800, "1.21.80"⟩]

/-- Two start("e1") calls poised to run on the loop: one server record, no
live session, no connection created yet. -/
def c1start : RaceConfig := ⟨⟨[c1server], [], 0⟩, ⟨0, none⟩, ⟨0, none⟩⟩

/-- Interleaving: task 1 runs its presence check (passes, nothing registered),
then task 2 runs start to completion, then task 1 resumes and also completes. -/
def c1schedule : List Bool :=
  [true, false, false, false, false, false, false, false, true, true, true, true, true, true]

def c1final : RaceConfig := raceRun "e1" 800 c1catalog 5 c1start c1schedule

/-- A race state in which a session for "e1" is already registered. -/
def c1busy : RaceState := ⟨[c1server], [("e1", ⟨1, "bedrock", "e1", 0⟩)], 1⟩

/-- An endpoint with autoRestart enabled, currently active and watched. -/
def c2server : Server :=
  ⟨"e2", 9, "srv2", "bedrock", "5.6.7.8", 19132, statusActive, true, true, "MaxBlack"⟩

def c2catalog : List Version := [⟨"bedrock", 800, "1.21.80"⟩]

def c2st0 : SMState := ⟨[c2server], [("e2", ⟨1, "bedrock", "e2", 0⟩)], []⟩

/-- State right after the watcher connection for "e2" drops (the disconnect
callback has run and scheduled the 30 s restart). -/
def c2afterDisc : SMState := (handleDisconnect c2server c2catalog "kicked" true c2st0).1

/-- State after the owner explicitly stops "e2" during the 30 s delay. -/
def c2afterStop : SMState := (stopBot "e2" (.ok ()) c2afterDisc).1

/-- The restart task that was scheduled at disconnect time and that no stop
ever cancels. -/
def c2task : ScheduledRestart := c2afterDisc.scheduled.getD 0 ⟨0, none, c2server, []⟩

/-- The scheduled task firing after the stop: the code runs
startBedrockBot(null, capturedRecord, versions) with no re-read of the
persisted record. -/
def c2rerun : SMState × StartResult :=
  startBedrockBot c2task.ctx c2task.server c2task.versions (.ok ⟨800, "1.21.80"⟩) (.ok 2) 99 c2afterStop

/-- A state with one endpoint and one live session for it. -/
def c7st : SMState := ⟨[c2server], [("e2", ⟨1, "bedrock", "e2", 0⟩)], []⟩

/-- A single-record table owned by user 1, used to evaluate reorderServers. -/
def c3table : List Server :=
  [⟨"a", 1, "old name", "bedrock", "1.2.3.4", 19132, statusStopped, true, false, "MaxBlack"⟩]

/-- A state with a server record, a stale activeClients entry for it, and
nothing scheduled - the start-failure examples run from here. -/
def c4st : SMState := ⟨[c1server], [("e1", ⟨1, "bedrock", "e1", 0⟩)], []⟩

/-- A state with one server record, no live session, nothing scheduled. -/
def c5st : SMState := ⟨[c1server], [], []⟩

lemma applyPatch_id (p : ServerPatch) (s : Server) : (applyPatch p s)._id = s._id := rfl

lemma findById_updateOne (l : List Server) (id : String) (p : ServerPatch) :
    findById (updateOne l id p) id = (findById l id).map (applyPatch p) := by
  induction l with
  | nil => rfl
  | cons s ss ih =>
    by_cases h : s._id == id
    · simp [updateOne, findById, h, List.find?_cons_of_pos, applyPatch_id]
    · simp only [updateOne, h, Bool.false_eq_true, if_false, findById] at ih ⊢
      rw [List.find?_cons_of_neg, List.find?_cons_of_neg]
      · exact ih
      · simpa using h
      · simpa [applyPatch_id] using h

lemma clientsHas_delete (m : List (String × ClientEntry)) (k : String) :
    clientsHas (clientsDelete m k) k = false := by
  induction m with
  | nil => rfl
  | cons p ps ih =>
    by_cases h : p.1 == k
    · simpa [clientsDelete, h] using ih
    · simpa [clientsDelete, clientsHas, h] using ih

lemma clientsGet_delete (m : List (String × ClientEntry)) (k : String) :
    clientsGet (clientsDelete m k) k = none := by
  induction m with
  | nil => rfl
  | cons p ps ih =>
    by_cases h : p.1 == k
    · simpa [clientsDelete, h] using ih
    · simpa [clientsDelete, clientsGet, List.find?_cons_of_neg, h] using ih

lemma findById_id {l : List Server} {id : String} {s : Server}
    (h : findById l id = some s) : s._id = id := by
  have hp := List.find?_some h
  simpa using hp

lemma filter_eq_self_of_all {α : Type} (p : α → Bool) :
    ∀ l : List α, (∀ x ∈ l, p x = true) → l.filter p = l := by
  intro l h
  induction l with
  | nil => rfl
  | cons a as ih =>
    have ha := h a (List.mem_cons_self a as)
    rw [List.filter_cons, if_pos (by simp [ha])]
    rw [ih (fun x hx => h x (List.mem_cons_of_mem a hx))]

lemma filter_eq_nil_of_all {α : Type} (p : α → Bool) :
    ∀ l : List α, (∀ x ∈ l, p x = false) → l.filter p = [] := by
  intro l h
  induction l with
  | nil => rfl
  | cons a as ih =>
    have ha := h a (List.mem_cons_self a as)
    rw [List.filter_cons, if_neg (by simp [ha])]
    exact ih (fun x hx => h x (List.mem_cons_of_mem a hx))

lemma filter_not_length_lt {α : Type} (q : α → Bool) :
    ∀ l : List α, (∃ x ∈ l, q x = true) →
      (l.filter (fun r => !(q r))).length < l.length := by
  intro l h
  induction l with
  | nil => rcases h with ⟨x, hx, _⟩; cases hx
  | cons a as ih =>
    rw [List.filter_cons]
    by_cases hqa : q a = true
    · rw [if_neg (by simp [hqa])]
      have := List.length_filter_le (fun r => !(q r)) as
      simpa [List.length_cons] using Nat.lt_succ_of_le this
    · rcases h with ⟨x, hx, hqx⟩
      rcases List.mem_cons.mp hx with rfl | hx'
      · exact absurd hqx hqa
      · rw [if_pos (by simp [Bool.of_not_eq_true hqa])]
        simpa [List.length_cons] using Nat.succ_lt_succ (ih ⟨x, hx', hqx⟩)

lemma insertById_perm (s : Server) :
    ∀ l : List Server, List.Perm (insertById s l) (s :: l) := by
  intro l
  induction l with
  | nil => exact List.Perm.refl _
  | cons t ts ih =>
    unfold insertById
    by_cases h : s._id ≤ t._id
    · rw [if_pos h]
    · rw [if_neg h]
      exact (ih.cons t).trans (List.Perm.swap s t ts)

lemma sortById_perm (l : List Server) : List.Perm (sortById l) l := by
  induction l with
  | nil => exact List.Perm.refl _
  | cons s ss ih =>
    exact (insertById_perm s (sortById ss)).trans (ih.cons s)

lemma insertById_pairwise (s : Server) (l : List Server)
    (h : l.Pairwise (fun a b => a._id ≤ b._id)) :
    (insertById s l).Pairwise (fun a b => a._id ≤ b._id) := by
  induction l with
  | nil => simp [insertById]
  | cons t ts ih =>
    rcases List.pairwise_cons.mp h with ⟨ht, hts⟩
    unfold insertById
    by_cases hle : s._id ≤ t._id
    · rw [if_pos hle]
      refine List.pairwise_cons.mpr ⟨?_, h⟩
      intro x hx
      rcases List.mem_cons.mp hx with rfl | hx'
      · exact hle
      · exact le_trans hle (ht x hx')
    · rw [if_neg hle]
      refine List.pairwise_cons.mpr ⟨?_, ih hts⟩
      intro x hx
      rcases List.mem_cons.mp ((insertById_perm s ts).mem_iff.mp hx) with rfl | hx'
      · exact le_of_not_le hle
      · exact ht x hx'

lemma sortById_pairwise (l : List Server) :
    (sortById l).Pairwise (fun a b => a._id ≤ b._id) := by
  induction l with
  | nil => simp [sortById]
  | cons s ss ih => exact insertById_pairwise s (sortById ss) ih

lemma renameFrom_eraseName (l : List Server) :
    ∀ i : Nat, (renameFrom i l).map eraseName = l.map eraseName := by
  induction l with
  | nil => intro i; rfl
  | cons s ss ih =>
    intro i
    show eraseName { s with serverName := "S - " ++ toString (i + 1) }
        :: (renameFrom (i + 1) ss).map eraseName = eraseName s :: ss.map eraseName
    rw [ih (i + 1)]
    rfl

lemma renameFrom_ids (l : List Server) :
    ∀ i : Nat, (renameFrom i l).map (fun s => s._id) = l.map (fun s => s._id) := by
  induction l with
  | nil => intro i; rfl
  | cons s ss ih =>
    intro i
    show s._id :: (renameFrom (i + 1) ss).map (fun s => s._id)
        = s._id :: ss.map (fun s => s._id)
    rw [ih (i + 1)]

lemma renameFrom_userId (l : List Server) :
    ∀ (i : Nat), ∀ x ∈ renameFrom i l, ∃ y ∈ l, x.userId = y.userId := by
  induction l with
  | nil => intro i x hx; cases hx
  | cons s ss ih =>
    intro i x hx
    rcases List.mem_cons.mp hx with rfl | hx'
    · exact ⟨s, List.mem_cons_self s ss, rfl⟩
    · rcases ih (i + 1) x hx' with ⟨y, hy, hxy⟩
      exact ⟨y, List.mem_cons_of_mem s hy, hxy⟩

lemma renameFrom_names (l : List Server) :
    ∀ i : Nat, (renameFrom i l).map (fun s => s.serverName)
      = (List.range l.length).map (fun j => "S - " ++ toString (i + j + 1)) := by
  induction l with
  | nil => intro i; rfl
  | cons s ss ih =>
    intro i
    show ("S - " ++ toString (i + 1)) :: (renameFrom (i + 1) ss).map (fun s => s.serverName)
      = (List.range (ss.length + 1)).map (fun j => "S - " ++ toString (i + j + 1))
    rw [ih (i + 1), List.range_succ_eq_map, List.map_cons, List.map_map]
    refine congrArg₂ (· :: ·) (by simp) ?_
    congr 1
    funext j
    simp only [Function.comp_apply]
    congr 2
    omega

/-- C3 counterexample: on a table holding a single endpoint of owner 1,
renumbering assigns the display name "S - 1", not "#1" as the claim states. -/
theorem c3_counterexample :
    (reorderServers c3table 1).map (fun s => s.serverName) = ["S - 1"]
  ∧ ("S - 1" : String) ≠ "#1" := by
  constructor
  · rfl
  · decide

/-- C3 (amended): for every table and owner, reorderServers leaves every
other owner's records (count, ids, all fields, order) exactly unchanged;
the target owner's records in the written table are exactly the renamed
sort of the target subset, so modulo serverName they are a permutation of
the original subset; their names are the contiguous sequence
"S - 1" .. "S - N" (N the subset size, so 1..N as the claim says, but with
prefix "S - " rather than "#"), assigned in ascending record-id order; and
the written table is the other-owner records followed by the renumbered
subset, never the subset alone. -/
theorem c3_reorder_frame (servers : List Server) (uid : Nat) :
    (reorderServers servers uid).filter (fun s => !(s.userId == uid))
        = servers.filter (fun s => !(s.userId == uid))
  ∧ (reorderServers servers uid).filter (fun s => s.userId == uid)
        = renameFrom 0 (sortById (servers.filter (fun s => s.userId == uid)))
  ∧ List.Perm (((reorderServers servers uid).filter (fun s => s.userId == uid)).map eraseName)
        ((servers.filter (fun s => s.userId == uid)).map eraseName)
  ∧ ((reorderServers servers uid).filter (fun s => s.userId == uid)).map (fun s => s.serverName)
        = (List.range (servers.filter (fun s => s.userId == uid)).length).map
            (fun j => "S - " ++ toString (j + 1))
  ∧ (((reorderServers servers uid).filter (fun s => s.userId == uid)).map
        (fun s => s._id)).Pairwise (fun a b => a ≤ b)
  ∧ reorderServers servers uid
      = servers.filter (fun s => !(s.userId == uid))
          ++ renameFrom 0 (sortById (servers.filter (fun s => s.userId == uid))) := by
  have hALLu : ∀ x ∈ renameFrom 0 (sortById (servers.filter (fun s => s.userId == uid))),
      (x.userId == uid) = true := by
    intro x hx
    rcases renameFrom_userId _ 0 x hx with ⟨y, hy, hxy⟩
    have hy' : y ∈ servers.filter (fun s => s.userId == uid) :=
      (sortById_perm _).mem_iff.mp hy
    have := (List.mem_filter.mp hy').2
    rw [hxy]
    exact this
  have hdef : reorderServers servers uid
      = servers.filter (fun s => !(s.userId == uid))
          ++ renameFrom 0 (sortById (servers.filter (fun s => s.userId == uid))) := rfl
  have heq1 : (servers.filter (fun s => !(s.userId == uid))).filter (fun s => !(s.userId == uid))
      = servers.filter (fun s => !(s.userId == uid)) :=
    filter_eq_self_of_all _ _ (fun x hx => (List.mem_filter.mp hx).2)
  have heq2 : (renameFrom 0 (sortById (servers.filter (fun s => s.userId == uid)))).filter
        (fun s => !(s.userId == uid)) = [] :=
    filter_eq_nil_of_all _ _ (fun x hx => by simp [hALLu x hx])
  have heq3 : (servers.filter (fun s => !(s.userId == uid))).filter (fun s => s.userId == uid)
      = [] :=
    filter_eq_nil_of_all _ _
      (fun x hx => by
        have h2 := (List.mem_filter.mp hx).2
        simpa using h2)
  have heq4 : (renameFrom 0 (sortById (servers.filter (fun s => s.userId == uid)))).filter
        (fun s => s.userId == uid)
      = renameFrom 0 (sortById (servers.filter (fun s => s.userId == uid))) :=
    filter_eq_self_of_all _ _ (fun x hx => hALLu x hx)
  have hother : (reorderServers servers uid).filter (fun s => !(s.userId == uid))
      = servers.filter (fun s => !(s.userId == uid)) := by
    rw [hdef, List.filter_append, heq1, heq2, List.append_nil]
  have huser : (reorderServers servers uid).filter (fun s => s.userId == uid)
      = renameFrom 0 (sortById (servers.filter (fun s => s.userId == uid))) := by
    rw [hdef, List.filter_append, heq3, heq4, List.nil_append]
  refine ⟨hother, huser, ?_, ?_, ?_, hdef⟩
  · rw [huser, renameFrom_eraseName]
    exact (sortById_perm _).map eraseName
  · rw [huser, renameFrom_names]
    have hlen : (sortById (servers.filter (fun s => s.userId == uid))).length
        = (servers.filter (fun s => s.userId == uid)).length :=
      (sortById_perm _).length_eq
    rw [hlen]
    congr 1
    funext j
    congr 2
    omega
  · rw [huser, renameFrom_ids]
    exact (List.pairwise_map).mpr (sortById_pairwise _)

/-- C1 counterexample: two start("e1") calls race on the event loop from a
state with no live session.  Task 1 runs its presence check first (it
passes), task 2 then runs start to completion, and task 1 resumes: both
calls report success, neither receives AlreadyActive, and two connections
are created (the second activeClients.set overwrote the first entry, whose
connection leaks).  This is possible because the probe and the store writes
are suspension points between the presence check and the registration. -/
theorem c1_counterexample :
    c1final.t1.result = some RaceResult.started
  ∧ c1final.t2.result = some RaceResult.started
  ∧ c1final.g.clientsCreated = 2
  ∧ c1final.g.activeClients = [("e1", ⟨2, "bedrock", "e1", 5⟩)] := by decide

/-- C1 (amended): a start call whose presence check runs while a session for
that endpointId is registered is a no-op on all shared state and signals
AlreadyActive.  (Exactly-one-registers among racing starts does not hold,
because registration happens only after later suspension points - see the
counterexample.) -/
theorem c1_presence_check_noop (serverId : String) (probeProtocol : Nat)
    (versions : List Version) (now : Nat) (g : RaceState) (t : RaceTask) (s : Server)
    (hres : t.result = none) (hpc : t.pc = 0)
    (hfound : findById g.servers serverId = some s)
    (hhas : clientsHas g.activeClients serverId = true) :
    stepStart serverId probeProtocol versions now g t
      = (g, { t with result := some RaceResult.alreadyRunning }) := by
  obtain ⟨pc, res⟩ := t
  dsimp only at hres hpc
  subst hres hpc
  simp [stepStart, hfound, hhas]

/-- Witness for c1_presence_check_noop at a concrete busy state. -/
theorem c1_presence_check_noop_witness :
    stepStart "e1" 800 c1catalog 5 c1busy ⟨0, none⟩
      = (c1busy, ⟨0, some RaceResult.alreadyRunning⟩) :=
  c1_presence_check_noop "e1" 800 c1catalog 5 c1busy ⟨0, none⟩ c1server rfl rfl rfl rfl

/-- C2 is violated by the code: after the disconnect of autoRestart endpoint
"e2" schedules the 30-second restart, the owner's explicit stop persists
status "متوقف" with autoRestart false - yet the pending task is still there,
and when it fires it runs startBedrockBot(null, capturedStaleRecord, versions),
which performs no re-read of the persisted record: with a reachable endpoint
it probes, reconnects, registers a new session and persists
"جاري الاتصال...", resurrecting the endpoint the owner explicitly stopped. -/
theorem c2_stopped_endpoint_resurrected :
    statusOf c2afterStop "e2" = some statusStopped
  ∧ (findById c2afterStop.servers "e2").map (fun s => s.autoRestart) = some false
  ∧ c2afterStop.scheduled = [⟨30000, none, c2server, c2catalog⟩]
  ∧ c2task = ⟨30000, none, c2server, c2catalog⟩
  ∧ c2rerun.2 = StartResult.started "1.21.80"
  ∧ clientsHas c2rerun.1.activeClients "e2" = true
  ∧ statusOf c2rerun.1 "e2" = some statusConnecting := by decide

/-- C4: whenever the try-block body of startBedrockBot throws (probe error or
createClient error), the catch handler produces the result: any activeClients
entry for the endpoint is deleted, the endpoint's status is persisted as
"فشل الاتصال" (when its record exists), and the caller gets the generic
connectFailed signal, which carries no trace of the thrown error - so no
collaborator exception escapes startBedrockBot, whose result type is total. -/
theorem c4_failure_caught_at_boundary (ctx : Option Nat) (server : Server)
    (versions : List Version) (probe : Except String ProbeResponse)
    (connect : Except String Nat) (now : Nat) (st : SMState) (e : String) (st' : SMState)
    (h : startBedrockBotBody ctx server versions probe connect now st = .error (e, st')) :
    startBedrockBot ctx server versions probe connect now st
      = ({ st' with
            activeClients := clientsDelete st'.activeClients server._id
            servers := updateOne st'.servers server._id { status := some statusConnectFailed } },
         .connectFailed)
  ∧ clientsGet (startBedrockBot ctx server versions probe connect now st).1.activeClients
      server._id = none
  ∧ (∀ s0, findById st'.servers server._id = some s0 →
      statusOf (startBedrockBot ctx server versions probe connect now st).1 server._id
        = some statusConnectFailed) := by
  have hmain : startBedrockBot ctx server versions probe connect now st
      = ({ st' with
            activeClients := clientsDelete st'.activeClients server._id
            servers := updateOne st'.servers server._id { status := some statusConnectFailed } },
         .connectFailed) := by
    unfold startBedrockBot
    rw [h]
  refine ⟨hmain, ?_, ?_⟩
  · rw [hmain]
    exact clientsGet_delete _ _
  · intro s0 hs0
    rw [hmain]
    simp [statusOf, findById_updateOne, hs0, applyPatch]

/-- Witness for c4_failure_caught_at_boundary: a timed-out probe on a state
that still holds a stale session entry for "e1". -/
theorem c4_failure_caught_witness :
    clientsGet (startBedrockBot none c1server c1catalog
        (.error "timeout") (.ok 1) 5 c4st).1.activeClients "e1" = none
  ∧ statusOf (startBedrockBot none c1server c1catalog
        (.error "timeout") (.ok 1) 5 c4st).1 "e1" = some statusConnectFailed := by
  have h := c4_failure_caught_at_boundary none c1server c1catalog
    (.error "timeout") (.ok 1) 5 c4st "timeout" c4st rfl
  exact ⟨h.2.1, h.2.2 c1server rfl⟩

/-- C5: when the probe succeeds but the reported protocol id has no catalog
entry, start persists status "إصدار غير مدعوم", leaves the session table
untouched, reports the unsupported signal, and never attempts a connection
(the result does not depend on the connect outcome at all). -/
theorem c5_unsupported_no_connect (ctx : Option Nat) (server : Server)
    (versions : List Version) (response : ProbeResponse)
    (connect connect' : Except String Nat) (now : Nat) (st : SMState)
    (hmiss : getSupportedVersions versions "bedrock" response.protocol = none) :
    startBedrockBot ctx server versions (.ok response) connect now st
      = ({ st with servers := updateOne st.servers server._id { status := some statusUnsupported } },
         .unsupported response.protocol)
  ∧ (startBedrockBot ctx server versions (.ok response) connect now st).1.activeClients
      = st.activeClients
  ∧ startBedrockBot ctx server versions (.ok response) connect now st
      = startBedrockBot ctx server versions (.ok response) connect' now st
  ∧ (∀ s0, findById st.servers server._id = some s0 →
      statusOf (startBedrockBot ctx server versions (.ok response) connect now st).1 server._id
        = some statusUnsupported) := by
  have hmain : ∀ c : Except String Nat,
      startBedrockBot ctx server versions (.ok response) c now st
        = ({ st with servers := updateOne st.servers server._id { status := some statusUnsupported } },
           .unsupported response.protocol) := by
    intro c
    unfold startBedrockBot startBedrockBotBody
    dsimp only
    rw [hmiss]
  refine ⟨hmain connect, by rw [hmain connect], (hmain connect).trans (hmain connect').symm, ?_⟩
  intro s0 hs0
  rw [hmain connect]
  simp [statusOf, findById_updateOne, hs0, applyPatch]

/-- Witness for c5_unsupported_no_connect: probed protocol 9999 is absent
from the seeded catalog; start marks "e1" unsupported and creates no session. -/
theorem c5_unsupported_witness :
    statusOf (startBedrockBot none c1server initialBedrockVersions
        (.ok ⟨9999, "?"⟩) (.ok 3) 5 c5st).1 "e1" = some statusUnsupported
  ∧ (startBedrockBot none c1server initialBedrockVersions
        (.ok ⟨9999, "?"⟩) (.ok 3) 5 c5st).1.activeClients = [] := by
  have h := c5_unsupported_no_connect none c1server initialBedrockVersions
    ⟨9999, "?"⟩ (.ok 3) (.ok 4) 5 c5st (by decide)
  exact ⟨h.2.2.2 c1server rfl, h.2.1⟩

/-- C6: the disconnect callback deletes the session entry first (it is the
head of the event trace, before any persistence); it re-reads the record;
with autoRestart true it persists "إعادة الاتصال..." and appends a scheduled
re-entry with a 30000 ms delay and no UI context; with autoRestart false it
persists "متوقف" and schedules nothing; and the notification outcome never
affects the resulting state (a failed send is swallowed). -/
theorem c6_disconnect_policy (server : Server) (versions : List Version) (reason : String)
    (notifyOk : Bool) (st : SMState) :
    (handleDisconnect server versions reason notifyOk st).1.activeClients
        = clientsDelete st.activeClients server._id
  ∧ (handleDisconnect server versions reason notifyOk st).2.head?
        = some (DEvent.sessionRemoved server._id)
  ∧ (∀ cs, findById st.servers server._id = some cs → cs.autoRestart = true →
      handleDisconnect server versions reason notifyOk st
        = (⟨updateOne st.servers cs._id { status := some statusReconnecting },
            clientsDelete st.activeClients server._id,
            st.scheduled ++ [⟨30000, none, cs, versions⟩]⟩,
           [DEvent.sessionRemoved server._id,
            DEvent.statusPersisted cs._id statusReconnecting,
            DEvent.restartScheduled cs._id 30000 false,
            DEvent.notifyAttempted notifyOk]))
  ∧ (∀ cs, findById st.servers server._id = some cs → cs.autoRestart = false →
      handleDisconnect server versions reason notifyOk st
        = (⟨updateOne st.servers server._id { status := some statusStopped },
            clientsDelete st.activeClients server._id,
            st.scheduled⟩,
           [DEvent.sessionRemoved server._id,
            DEvent.statusPersisted server._id statusStopped,
            DEvent.notifyAttempted notifyOk]))
  ∧ (handleDisconnect server versions reason true st).1
        = (handleDisconnect server versions reason false st).1 := by
  refine ⟨?_, ?_, ?_, ?_, ?_⟩
  · unfold handleDisconnect
    dsimp only
    cases findById st.servers server._id with
    | none => rfl
    | some cs => cases hcs : cs.autoRestart <;> simp [hcs]
  · unfold handleDisconnect
    dsimp only
    cases findById st.servers server._id with
    | none => rfl
    | some cs => cases hcs : cs.autoRestart <;> simp [hcs]
  · intro cs hfind har
    unfold handleDisconnect
    dsimp only
    rw [hfind]
    simp [har]
  · intro cs hfind har
    unfold handleDisconnect
    dsimp only
    rw [hfind]
    simp [har]
  · unfold handleDisconnect
    dsimp only
    cases findById st.servers server._id with
    | none => rfl
    | some cs => cases hcs : cs.autoRestart <;> simp [hcs]

/-- Witness for c6_disconnect_policy: the autoRestart endpoint "e2" drops
its connection and the full trace is observed. -/
theorem c6_disconnect_policy_witness :
    handleDisconnect c2server c2catalog "kicked" true c2st0
      = (⟨updateOne c2st0.servers "e2" { status := some statusReconnecting },
          clientsDelete c2st0.activeClients "e2",
          [⟨30000, none, c2server, c2catalog⟩]⟩,
         [DEvent.sessionRemoved "e2",
          DEvent.statusPersisted "e2" statusReconnecting,
          DEvent.restartScheduled "e2" 30000 false,
          DEvent.notifyAttempted true]) :=
  (c6_disconnect_policy c2server c2catalog "kicked" true c2st0).2.2.1 c2server rfl rfl

/-- C7 counterexample: stopping "e2" while its session's teardown call
throws: stopBot itself throws, the session entry is NOT removed, and an
immediately repeated stop throws again - contradicting "removes the Session
regardless of the teardown's outcome" and "the second call never throws".
(The status and the autoRestart flag are persisted before the throw.) -/
theorem c7_counterexample :
    (stopBot "e2" (.error "socket closed") c7st).2 = .error "socket closed"
  ∧ clientsHas (stopBot "e2" (.error "socket closed") c7st).1.activeClients "e2" = true
  ∧ (stopBot "e2" (.error "socket closed")
        ((stopBot "e2" (.error "socket closed") c7st).1)).2 = .error "socket closed"
  ∧ statusOf (stopBot "e2" (.error "socket closed") c7st).1 "e2" = some statusStopped := by
  refine ⟨rfl, rfl, rfl, rfl⟩

/-- C7 (amended): for an existing record, stop persists status "متوقف" and
autoRestart false under every teardown outcome; with no session it succeeds
without calling the teardown; with a session whose teardown returns normally
it removes the session and succeeds; a throwing teardown propagates out of
stopBot and leaves the session registered.  When the first stop's teardown
returns normally, a second stop is a no-throw success and reports status
"متوقف" again, whatever its own teardown outcome would be. -/
theorem c7_stop_semantics (st : SMState) (serverId : String) (td td2 : Except String Unit)
    (server : Server) (hfind : findById st.servers serverId = some server) :
    (stopBot serverId td st).1.servers = updateOne st.servers server._id stopBotPatch
  ∧ (clientsHas st.activeClients serverId = false →
      stopBot serverId td st
        = (⟨updateOne st.servers server._id stopBotPatch, st.activeClients, st.scheduled⟩,
           .ok .stopped))
  ∧ (clientsHas st.activeClients serverId = true →
      stopBot serverId (.ok ()) st
        = (⟨updateOne st.servers server._id stopBotPatch,
            clientsDelete st.activeClients serverId, st.scheduled⟩,
           .ok .stopped))
  ∧ (∀ e, clientsHas st.activeClients serverId = true →
      stopBot serverId (.error e) st
        = (⟨updateOne st.servers server._id stopBotPatch, st.activeClients, st.scheduled⟩,
           .error e))
  ∧ statusOf (stopBot serverId (.ok ()) st).1 serverId = some statusStopped
  ∧ (stopBot serverId td2 (stopBot serverId (.ok ()) st).1).2 = .ok .stopped
  ∧ statusOf (stopBot serverId td2 (stopBot serverId (.ok ()) st).1).1 serverId
      = some statusStopped := by
  have hid : server._id = serverId := findById_id hfind
  subst hid
  have ha : ∀ t : Except String Unit,
      (stopBot server._id t st).1.servers = updateOne st.servers server._id stopBotPatch := by
    intro t
    unfold stopBot
    dsimp only
    rw [hfind]
    cases hhas : clientsHas st.activeClients server._id
    · simp [hhas, stopBotPatch]
    · cases t <;> simp [hhas, stopBotPatch]
  have hb : ∀ t : Except String Unit, clientsHas st.activeClients server._id = false →
      stopBot server._id t st
        = (⟨updateOne st.servers server._id stopBotPatch, st.activeClients, st.scheduled⟩,
           .ok .stopped) := by
    intro t hhas
    unfold stopBot
    dsimp only
    rw [hfind]
    simp [hhas, stopBotPatch]
  have hc : clientsHas st.activeClients server._id = true →
      stopBot server._id (.ok ()) st
        = (⟨updateOne st.servers server._id stopBotPatch,
            clientsDelete st.activeClients server._id, st.scheduled⟩,
           .ok .stopped) := by
    intro hhas
    unfold stopBot
    dsimp only
    rw [hfind]
    simp [hhas, stopBotPatch]
  have hd : ∀ e, clientsHas st.activeClients server._id = true →
      stopBot server._id (.error e) st
        = (⟨updateOne st.servers server._id stopBotPatch, st.activeClients, st.scheduled⟩,
           .error e) := by
    intro e hhas
    unfold stopBot
    dsimp only
    rw [hfind]
    simp [hhas, stopBotPatch]
  have hfind2 : findById (stopBot server._id (.ok ()) st).1.servers server._id
      = some (applyPatch stopBotPatch server) := by
    rw [ha (.ok ()), findById_updateOne, hfind]
    rfl
  have hhas2 : clientsHas (stopBot server._id (.ok ()) st).1.activeClients server._id
      = false := by
    cases hhas : clientsHas st.activeClients server._id
    · rw [hb (.ok ()) hhas]
      exact hhas
    · rw [hc hhas]
      exact clientsHas_delete _ _
  have he : statusOf (stopBot server._id (.ok ()) st).1 server._id = some statusStopped := by
    unfold statusOf
    rw [hfind2]
    rfl
  have hsecond : stopBot server._id td2 (stopBot server._id (.ok ()) st).1
      = (⟨updateOne (stopBot server._id (.ok ()) st).1.servers server._id stopBotPatch,
          (stopBot server._id (.ok ()) st).1.activeClients,
          (stopBot server._id (.ok ()) st).1.scheduled⟩,
         .ok .stopped) := by
    generalize hX : (stopBot server._id (.ok ()) st).1 = X at hfind2 hhas2 ⊢
    unfold stopBot
    dsimp only
    rw [hfind2]
    simp [hhas2, stopBotPatch, applyPatch_id]
  refine ⟨ha td, hb td, hc, hd, he, ?_, ?_⟩
  · rw [hsecond]
  · rw [hsecond]
    unfold statusOf
    dsimp only
    rw [findById_updateOne, hfind2]
    rfl

/-- Witness for c7_stop_semantics: stopping "e2" with a session present and
a normally-returning teardown, then stopping again. -/
theorem c7_stop_semantics_witness :
    stopBot "e2" (.ok ()) c7st
      = (⟨updateOne c7st.servers "e2" stopBotPatch,
          clientsDelete c7st.activeClients "e2", c7st.scheduled⟩,
         .ok .stopped)
  ∧ (stopBot "e2" (.ok ()) (stopBot "e2" (.ok ()) c7st).1).2 = .ok .stopped := by
  have h := c7_stop_semantics c7st "e2" (.ok ()) (.ok ()) c2server rfl
  exact ⟨h.2.2.1 rfl, h.2.2.2.2.2.1⟩

/-- C8: a missing table file reads as the table's empty/default value
([] for users, servers and versions; an empty object for config); content
on which JSON.parse throws likewise reads as the default instead of
propagating; parseable content is returned as parsed; and any other read
error is rethrown to the caller. -/
theorem c8_readDb_defaults (parseJson : String → Option JsonValue) (data msg file : String) :
    (readDb parseJson "users.json" .enoent = .ok (.arr [])
      ∧ readDb parseJson "servers.json" .enoent = .ok (.arr [])
      ∧ readDb parseJson "versions.json" .enoent = .ok (.arr [])
      ∧ readDb parseJson "config.json" .enoent = .ok (.obj []))
  ∧ (parseJson data = none →
      (readDb parseJson "users.json" (.ok data) = .ok (.arr [])
        ∧ readDb parseJson "servers.json" (.ok data) = .ok (.arr [])
        ∧ readDb parseJson "versions.json" (.ok data) = .ok (.arr [])
        ∧ readDb parseJson "config.json" (.ok data) = .ok (.obj [])))
  ∧ (∀ v, parseJson data = some v → readDb parseJson file (.ok data) = .ok v)
  ∧ readDb parseJson file (.otherError msg) = .error msg := by
  refine ⟨⟨rfl, rfl, rfl, rfl⟩, ?_, ?_, rfl⟩
  · intro h
    refine ⟨?_, ?_, ?_, ?_⟩ <;> (unfold readDb; dsimp only; rw [h]; rfl)
  · intro v h
    unfold readDb
    dsimp only
    rw [h]

/-- Witness for c8_readDb_defaults: a parser that rejects everything yields
the users/config defaults. -/
theorem c8_readDb_defaults_witness :
    readDb (fun _ => none) "users.json" (.ok "not json") = .ok (.arr [])
  ∧ readDb (fun _ => none) "config.json" (.ok "not json") = .ok (.obj [])
  ∧ readDb (fun _ => none) "users.json" .enoent = .ok (.arr []) := by
  have h := c8_readDb_defaults (fun _ => none) "not json" "disk failure" "users.json"
  exact ⟨(h.2.1 rfl).1, (h.2.1 rfl).2.2.2, h.1.1⟩

/-- C9: getFromCache returns the stored value exactly when an entry is
present and now is strictly before its expiry; otherwise it deletes the key
and reports a miss.  setToCache unconditionally overwrites the key with
expiry now + ttl seconds and touches no other key.  In particular: set with
ttl 0 then get at the same instant misses; set with ttl 60 then get 30
seconds later hits; 61 seconds later misses. -/
theorem c9_cache_semantics (K V : Type) [DecidableEq K] (cache : Cache K V) (key : K)
    (value : V) (ttl now : Nat) :
    ((getFromCache cache key now).2 = some value ↔
        ∃ e, cache key = some e ∧ now < e.expiry ∧ e.value = value)
  ∧ ((∀ e, cache key = some e → e.expiry ≤ now) →
        (getFromCache cache key now).2 = none ∧ (getFromCache cache key now).1 key = none)
  ∧ setToCache cache key value ttl now key = some ⟨value, now + ttl * 1000⟩
  ∧ (∀ k, k ≠ key → setToCache cache key value ttl now k = cache k)
  ∧ (getFromCache (setToCache cache key value 0 now) key now).2 = none
  ∧ (getFromCache (setToCache cache key value 60 now) key (now + 30000)).2 = some value
  ∧ (getFromCache (setToCache cache key value 60 now) key (now + 61000)).2 = none := by
  refine ⟨?_, ?_, ?_, ?_, ?_, ?_, ?_⟩
  · unfold getFromCache
    cases hc : cache key with
    | none => simp
    | some entry =>
      by_cases hexp : entry.expiry > now
      · simp [hexp]
      · simp [hexp, Nat.not_lt.mp hexp]
  · intro hall
    unfold getFromCache
    cases hc : cache key with
    | none => simp
    | some entry =>
      have hexp : ¬ entry.expiry > now := Nat.not_lt.mpr (hall entry hc)
      simp [hexp]
  · unfold setToCache
    simp
  · intro k hk
    unfold setToCache
    simp [hk]
  · unfold getFromCache setToCache
    simp
  · unfold getFromCache setToCache
    simp
  · unfold getFromCache setToCache
    simp

/-- Witness for c9_cache_semantics on a concrete empty cache. -/
theorem c9_cache_semantics_witness :
    (getFromCache (fun _ : Nat => (none : Option (CacheEntry Nat))) 0 5).2 = none
  ∧ (getFromCache (fun _ : Nat => (none : Option (CacheEntry Nat))) 0 5).1 0 = none := by
  have h := c9_cache_semantics Nat Nat (fun _ => none) 0 7 1 5
  exact h.2.1 (fun e he => nomatch he)

lemma deleteOne_no_match {α : Type} (q : α → Bool) (l : List α)
    (h : ∀ x ∈ l, q x = false) : Watcher.deleteOne q l = (l, 0, false) := by
  simp only [Watcher.deleteOne]
  rw [filter_eq_self_of_all _ _ (fun x hx => by simp [h x hx])]
  simp

lemma deleteOne_with_match {α : Type} (q : α → Bool) (l : List α)
    (h : ∃ x ∈ l, q x = true) :
    Watcher.deleteOne q l = (l.filter (fun r => !(q r)), 1, true) := by
  simp only [Watcher.deleteOne]
  have hlt := filter_not_length_lt q l h
  simp [hlt]

/-- C10: for both the servers and the versions table, deleteOne with a query
matching no record returns the table unchanged, deletedCount 0 and performs
no write; with a query matching two or more records it removes every
matching record in the single write while still reporting deletedCount 1. -/
theorem c10_deleteOne_semantics (q : Server → Bool) (servers : List Server)
    (qv : Version → Bool) (versions : List Version) :
    ((∀ s ∈ servers, q s = false) → Servers.deleteOne q servers = (servers, 0, false))
  ∧ (2 ≤ servers.countP q →
      (Servers.deleteOne q servers).1 = servers.filter (fun r => !(q r))
      ∧ (∀ x ∈ (Servers.deleteOne q servers).1, q x = false)
      ∧ (Servers.deleteOne q servers).2 = (1, true))
  ∧ ((∀ v ∈ versions, qv v = false) → Versions.deleteOne qv versions = (versions, 0, false))
  ∧ (2 ≤ versions.countP qv →
      (Versions.deleteOne qv versions).1 = versions.filter (fun r => !(qv r))
      ∧ (∀ x ∈ (Versions.deleteOne qv versions).1, qv x = false)
      ∧ (Versions.deleteOne qv versions).2 = (1, true)) := by
  refine ⟨?_, ?_, ?_, ?_⟩
  · intro h
    exact deleteOne_no_match q servers h
  · intro h
    have hex : ∃ x ∈ servers, q x = true := by
      have hpos : 0 < servers.countP q := by omega
      simpa using List.countP_pos_iff.mp hpos
    have heq := deleteOne_with_match q servers hex
    unfold Servers.deleteOne
    rw [heq]
    refine ⟨rfl, ?_, rfl⟩
    intro x hx
    have := (List.mem_filter.mp hx).2
    simpa using this
  · intro h
    exact deleteOne_no_match qv versions h
  · intro h
    have hex : ∃ x ∈ versions, qv x = true := by
      have hpos : 0 < versions.countP qv := by omega
      simpa using List.countP_pos_iff.mp hpos
    have heq := deleteOne_with_match qv versions hex
    unfold Versions.deleteOne
    rw [heq]
    refine ⟨rfl, ?_, rfl⟩
    intro x hx
    have := (List.mem_filter.mp hx).2
    simpa using this

/-- Witness for c10_deleteOne_semantics: a no-match delete on servers and a
two-match delete on versions. -/
theorem c10_deleteOne_semantics_witness :
    Servers.deleteOne (fun s => s.userId == 9) [c1server] = ([c1server], 0, false)
  ∧ (Versions.deleteOne (fun v => v.type == "bedrock")
      [⟨"bedrock", 800, "1.21.80"⟩, ⟨"bedrock", 818, "1.21.90"⟩]).1 = []
  ∧ (Versions.deleteOne (fun v => v.type == "bedrock")
      [⟨"bedrock", 800, "1.21.80"⟩, ⟨"bedrock", 818, "1.21.90"⟩]).2 = (1, true) := by
  have h := c10_deleteOne_semantics (fun s => s.userId == 9) [c1server]
    (fun v => v.type == "bedrock") [⟨"bedrock", 800, "1.21.80"⟩, ⟨"bedrock", 818, "1.21.90"⟩]
  refine ⟨h.1 (by decide), ?_, (h.2.2.2 (by decide)).2.2⟩
  rw [(h.2.2.2 (by decide)).1]
  rfl

end Watcher
